import Mathlib

/-!
Verification of the GAVID backend core (inference engine + telemetry collector).

Shallow embedding of `backend/app/inference.py` and `backend/app/metrics.py`.
External capability providers (PIL decoding, torch/torchvision numerics,
torch_tensorrt compilation, CuPy, DCGM/NVML) are abstracted to their observable
interfaces; the repository's own control flow, error handling, caching
algorithm, ranking construction and timing arithmetic are embedded faithfully.
Wall-clock measurements are modelled as nonnegative rationals.
-/

namespace GAVID

/-! ### Execution artifact cache (`ResNet18Engine._load_or_compile_trt`) -/

/-- Allowed kernel precisions, mirroring `torch.float` / `torch.half`. -/
inductive Precision where
  | full
  | half
deriving DecidableEq, Repr

/-- Filesystem / compiler side effects performed by `_load_or_compile_trt`,
in the order they are issued. -/
inductive FsEvent where
  | mkdirParent      -- `engine_path.parent.mkdir(parents=True, exist_ok=True)`
  | readEngineFile   -- `engine_path.read_bytes()` + `torch.jit.load`
  | compileEngine    -- `torch_tensorrt.compile(...)`
  | writeEngineFile  -- `engine_path.write_bytes(...)`
deriving DecidableEq, Repr

/-- Result of the cache routine: a deserialized module, no artifact
(compiler unavailable), or a freshly compiled module together with the
input-shape range and enabled precisions it was compiled with. -/
inductive TrtOutcome where
  | loaded
  | noArtifact
  | compiled (minBatch optBatch maxBatch : Nat) (precisions : List Precision)
deriving DecidableEq, Repr

/-- The `enabled_precisions` set: `{torch.float, torch.half}` when fp16 is
requested, else `{torch.float}` (inference.py lines 163-165). -/
def trtPrecisions (fp16 : Bool) : List Precision :=
  if fp16 then [Precision.full, Precision.half] else [Precision.full]

/-- Embedding of `ResNet18Engine._load_or_compile_trt` (inference.py 134-178).
`fileExists` models `engine_path.exists()`; `trtAvailable` models
`torch_tensorrt is not None`.  The parent directory is created first (line
136), before the existence check; if the file exists it is deserialized and
returned with no inspection of `maxBatch`/`fp16`; otherwise, when the compiler
is available, a graph is compiled for batch range
`(1, maxBatch // 2 + 1, maxBatch)` and serialized back to the path. -/
def loadOrCompileTrt (fileExists trtAvailable : Bool) (maxBatch : Nat) (fp16 : Bool) :
    TrtOutcome × List FsEvent :=
  if fileExists then
    (TrtOutcome.loaded, [FsEvent.mkdirParent, FsEvent.readEngineFile])
  else if trtAvailable = false then
    (TrtOutcome.noArtifact, [FsEvent.mkdirParent])
  else
    (TrtOutcome.compiled 1 (maxBatch / 2 + 1) maxBatch (trtPrecisions fp16),
      [FsEvent.mkdirParent, FsEvent.compileEngine, FsEvent.writeEngineFile])

/-! ### Telemetry backends and collector (`backend/app/metrics.py`) -/

/-- Dataclass `_MetricSample` (metrics.py 21-30); floats modelled by `ℚ`. -/
structure MetricSample where
  gpu_util : ℚ
  mem_util : ℚ
  fb_used_mb : ℚ
  fb_total_mb : ℚ
  power_w : ℚ
  power_limit_w : ℚ
  temperature_c : ℚ
  timestamp : ℚ
deriving DecidableEq, Repr

/-- The closed set of telemetry backend variants: `_DCGMBackend`,
`_NVMLBackend`, `_StubBackend`. -/
inductive MetricBackendKind where
  | dcgm
  | nvml
  | stub
deriving DecidableEq, Repr

/-- The `source` property of each backend class (metrics.py 86-88, 125-127,
153-155). -/
def backendSourceName : MetricBackendKind → String
  | MetricBackendKind.dcgm => "dcgm"
  | MetricBackendKind.nvml => "nvml"
  | MetricBackendKind.stub => "stub"

/-- Environment under which `MetricsCollector` is constructed: whether each
real backend's constructor succeeds (`_DCGMBackend()` raises when pydcgm is
missing or no GPU is discovered; `_NVMLBackend()` raises when pynvml is
missing or has no device). -/
structure TelemetryEnv where
  dcgmConstructs : Bool
  nvmlConstructs : Bool
deriving DecidableEq, Repr

/-- Embedding of `MetricsCollector._initialize_backend` (metrics.py 168-174):
try each real backend class in the fixed order `(_DCGMBackend, _NVMLBackend)`,
swallowing any constructor exception, and fall back to `_StubBackend()`,
which cannot fail.  Totality of this function is the embedded form of
"construction of the collector always succeeds". -/
def probeBackends (env : TelemetryEnv) : MetricBackendKind :=
  if env.dcgmConstructs then MetricBackendKind.dcgm
  else if env.nvmlConstructs then MetricBackendKind.nvml
  else MetricBackendKind.stub

/-- Abstract selected backend as `collect` sees it: the result of the k-th
`sample()` call, plus the `source` and `device_name` properties. -/
structure BackendModel where
  sampleSeq : Nat → MetricSample
  source : String
  deviceName : Option String

/-- Observable effects of the `collect` polling loop. -/
inductive CollectEvent where
  | sampleCall
  | sleepCall (dur : ℚ)
deriving DecidableEq, Repr

/-- Boolean recognizer for `sample()` calls in the event trace. -/
def isSampleCall : CollectEvent → Bool
  | CollectEvent.sampleCall => true
  | CollectEvent.sleepCall _ => false

/-- Boolean recognizer for `time.sleep` calls in the event trace. -/
def isSleepCall : CollectEvent → Bool
  | CollectEvent.sampleCall => false
  | CollectEvent.sleepCall _ => true

/-- Schema model `GPUUtilizationSample` (schema.py): the wire form of one sample. -/
structure GPUUtilizationSample where
  gpu_util : ℚ
  mem_util : ℚ
  memory_used_mb : ℚ
  memory_total_mb : ℚ
  power_w : ℚ
  power_limit_w : ℚ
  temperature_c : ℚ
  timestamp : ℚ
deriving DecidableEq, Repr

/-- Field-by-field conversion `_MetricSample -> GPUUtilizationSample`
performed inside `collect` (metrics.py 184-195). -/
def toUtilizationSample (s : MetricSample) : GPUUtilizationSample :=
  { gpu_util := s.gpu_util
    mem_util := s.mem_util
    memory_used_mb := s.fb_used_mb
    memory_total_mb := s.fb_total_mb
    power_w := s.power_w
    power_limit_w := s.power_limit_w
    temperature_c := s.temperature_c
    timestamp := s.timestamp }

/-- Schema model `GPUUtilizationResponse` (schema.py). -/
structure GPUUtilizationResponse where
  samples : List GPUUtilizationSample
  source : String
  interval_s : ℚ
  device : Option String

/-- The `for idx in range(num_samples)` loop body of `collect`
(metrics.py 179-182): sample, then sleep for the configured interval unless
this was the last iteration.  Returns the accumulated samples and the ordered
effect trace, iterating `idx` from the given start up to `total`. -/
def collectLoop (b : BackendModel) (interval : ℚ) (total idx : Nat) :
    List MetricSample × List CollectEvent :=
  if _h : idx < total then
    let rest := collectLoop b interval total (idx + 1)
    (b.sampleSeq idx :: rest.1,
      (if idx < total - 1 then
        [CollectEvent.sampleCall, CollectEvent.sleepCall interval]
      else [CollectEvent.sampleCall]) ++ rest.2)
  else ([], [])
termination_by total - idx

/-- Embedding of `MetricsCollector.collect` (metrics.py 176-201):
clamp `num_samples` to at least 1, run the polling loop, then wrap the
samples plus `source`, `interval_s` and `device` into the response. -/
def collect (b : BackendModel) (interval : ℚ) (numSamples : Int) :
    GPUUtilizationResponse × List CollectEvent :=
  let m := (max 1 numSamples).toNat
  let run := collectLoop b interval m 0
  ({ samples := run.1.map toUtilizationSample
     source := b.source
     interval_s := interval
     device := b.deviceName }, run.2)

/-! ### Inference engine (`backend/app/inference.py`) -/

/-- A successfully decoded image. -/
structure PImage where
  payload : List Nat
deriving DecidableEq, Repr

/-- Modelled from the spec: external image decoding (`PIL.Image.open`, not
part of this repository).  A payload decodes iff it is non-empty and starts
with a recognized image magic byte; in particular the empty payload is not a
valid image (`PredictionRequest` invariant, spec section 3). -/
def decodeImage (payload : List Nat) : Option PImage :=
  match payload with
  | [] => none
  | b :: _ => if b = 0xFF ∨ b = 0x89 then some ⟨payload⟩ else none

/-- The two preprocessing strategies: `CuPyPreprocessor` and
`TorchPreprocessor`. -/
inductive PreprocessorKind where
  | cupy
  | torch
deriving DecidableEq, Repr

/-- Embedding of `ResNet18Engine._select_preprocessor` (inference.py 100-103):
CuPy iff the resolved device type is cuda and CuPy imported. -/
def selectPreprocessor (deviceIsCuda cupyAvailable : Bool) : PreprocessorKind :=
  if deviceIsCuda && cupyAvailable then PreprocessorKind.cupy else PreprocessorKind.torch

/-- Shape/placement view of a torch tensor (the resize/normalize pixel math
is an external-library non-goal, spec section 1). -/
structure STensor where
  shape : List Nat
  onCuda : Bool
  halfPrec : Bool
deriving DecidableEq, Repr

/-- Both preprocessors produce an unbatched 3-dim CHW tensor of side 224;
the CuPy pipeline leaves it on the device after the initial transfer. -/
def applyPreprocessor : PreprocessorKind → PImage → STensor
  | PreprocessorKind.cupy, _ => ⟨[3, 224, 224], true, false⟩
  | PreprocessorKind.torch, _ => ⟨[3, 224, 224], false, false⟩

/-- Embedding of `ResNet18Engine._ensure_batch` (inference.py 180-183). -/
def ensureBatch (t : STensor) : STensor :=
  if t.shape.length = 3 then { t with shape := 1 :: t.shape } else t

/-- The engine state `predict` reads: device/precision configuration, the
selected preprocessor, the optional TensorRT module and the eager model
(their numeric forward passes abstracted as functions to a batch of logit
rows), and the label set. -/
structure EngineModel where
  deviceIsCuda : Bool
  fp16 : Bool
  preprocessor : PreprocessorKind
  trtModule : Option (STensor → List (List ℚ))
  torchModel : STensor → List (List ℚ)
  labels : List String

/-- Embedding of `ResNet18Engine._to_device` (inference.py 185-190). -/
def toDevice (eng : EngineModel) (t : STensor) : STensor :=
  if eng.deviceIsCuda then
    let moved := { t with onCuda := true }
    if eng.fp16 then { moved with halfPrec := true } else moved
  else t

/-- Schema model `ClassificationCandidate` (schema.py). -/
structure ClassificationCandidate where
  label : String
  confidence : ℚ
deriving DecidableEq, Repr

/-- Schema model `InferenceResponse` (schema.py); `throughput_fps = none` models the
`float("inf")` case. -/
structure InferenceResponse where
  top1 : ClassificationCandidate
  top5 : List ClassificationCandidate
  latency_ms : ℚ
  throughput_fps : Option ℚ
  engine : String
  batch_size : Nat
deriving DecidableEq, Repr

/-- Ordering used to model `torch.topk`: score/index pairs compared by
non-increasing score. -/
def scoreGE (a b : ℚ × Nat) : Prop := b.1 ≤ a.1

instance : DecidableRel scoreGE := fun a b => inferInstanceAs (Decidable (b.1 ≤ a.1))

instance : IsTotal (ℚ × Nat) scoreGE := ⟨fun a b => le_total b.1 a.1⟩

instance : IsTrans (ℚ × Nat) scoreGE := ⟨fun _ _ _ hab hbc => le_trans hbc hab⟩

/-- Modelled contract of `torch.topk(scores, k)` zipped with its indices
(inference.py 221, 224): the `k` largest scores paired with their source
indices, ordered by non-increasing score. -/
def topkWithIndices (k : Nat) (scores : List ℚ) : List (ℚ × Nat) :=
  ((scores.enum.map (fun p => (p.2, p.1))).insertionSort scoreGE).take k

/-- Candidate list construction (inference.py 222-225):
`ClassificationCandidate(label=self.labels[idx], confidence=float(score))`
over the top-5 score/index pairs. -/
def buildCandidates (labels : List String) (scores : List ℚ) :
    List ClassificationCandidate :=
  (topkWithIndices 5 scores).map (fun si => ⟨labels.getD si.2 "", si.1⟩)

/-- Observable preprocessing/device effects of one `predict` call, in
program order. -/
inductive PEvent where
  | preprocessRun
  | cudaSync
  | modelExec (engineName : String)
deriving DecidableEq, Repr

/-- The error raised for an undecodable payload:
`ValueError("Provided file is not a valid image.")` (inference.py 196). -/
inductive PredictError where
  | invalidImage
deriving DecidableEq, Repr

/-- Execution backend dispatch (inference.py 208-215): prefer the TensorRT
module when present, otherwise the eager PyTorch model; records the
human-readable engine name. -/
def runModel (eng : EngineModel) (t : STensor) : List (List ℚ) × String :=
  match eng.trtModule with
  | some f => (f t, "TensorRT")
  | none => (eng.torchModel t, "PyTorch")

/-- The score vector fed to the ranking step:
`torch.softmax(outputs[0], dim=0)` (inference.py 220), with softmax
abstracted as the external function `softmaxF`. -/
def predictScores (softmaxF : List ℚ → List ℚ) (eng : EngineModel) (img : PImage) :
    List ℚ :=
  let t := toDevice eng (ensureBatch (applyPreprocessor eng.preprocessor img))
  softmaxF ((runModel eng t).1.headD [])

/-- Embedding of `ResNet18Engine.predict` (inference.py 192-237).
`preMs`/`exMs` are the measured wall-clock durations of the preprocessing
and execution phases.  Returns the response (or the invalid-image error)
together with the ordered trace of preprocessing/device effects; an
undecodable payload fails before any effect is performed. -/
def predict (softmaxF : List ℚ → List ℚ) (eng : EngineModel) (payload : List Nat)
    (preMs exMs : ℚ) : Except PredictError InferenceResponse × List PEvent :=
  match decodeImage payload with
  | none => (Except.error PredictError.invalidImage, [])
  | some img =>
    let syncs : List PEvent := if eng.deviceIsCuda then [PEvent.cudaSync] else []
    let t := toDevice eng (ensureBatch (applyPreprocessor eng.preprocessor img))
    let fwd := runModel eng t
    let cands := buildCandidates eng.labels (predictScores softmaxF eng img)
    let latency := preMs + exMs
    let throughput : Option ℚ := if 0 < latency then some (1000 / latency) else none
    (Except.ok
      { top1 := cands.headD ⟨"", 0⟩
        top5 := cands
        latency_ms := latency
        throughput_fps := throughput
        engine := fwd.2
        batch_size := t.shape.headD 0 },
      [PEvent.preprocessRun] ++ syncs ++ [PEvent.modelExec fwd.2] ++ syncs)

/-! ### Engine construction (`ResNet18Engine.__init__` / `_load_models`) -/

/-- Environment facts consumed by engine construction. -/
structure BuildEnv where
  cudaAvailable : Bool
  cupyAvailable : Bool
  trtAvailable : Bool
  pretrainedFetchOk : Bool
  modelTorchWeights : Option String
  engineFileExists : Bool
deriving DecidableEq, Repr

/-- Constructor arguments (taken from `settings` by default). -/
structure BuildCfg where
  requestedCuda : Bool
  fp16 : Bool
  maxBatchSize : Nat
  allowCpuFallback : Bool
deriving DecidableEq, Repr

/-- Device resolution (inference.py 87):
`torch.device(device if torch.cuda.is_available() else "cpu")`; `true` means
the resolved device type is cuda. -/
def resolveDeviceCuda (env : BuildEnv) (cfg : BuildCfg) : Bool :=
  env.cudaAvailable && cfg.requestedCuda

/-- Provenance of the model weights held by a constructed engine. -/
inductive Weights where
  | randomInit
  | pretrained
  | localFile (path : String)
deriving DecidableEq, Repr

/-- Construction-time failures of `_load_models`. -/
inductive EngineError where
  | invalidWeightsConfig
  | cudaRequired
deriving DecidableEq, Repr

/-- The weight-loading try/except of `_load_models` (inference.py 106-120).
On fetch failure the model starts from `resnet18(weights=None)` (random
initialization) and is immediately overwritten by the configured local
state dict, or construction aborts with
`RuntimeError("Unable to load pretrained ResNet18 weights. ...")`; the
boolean records whether the pretrained label set was installed. -/
def loadPretrainedOrLocal (env : BuildEnv) : Except EngineError (Weights × Bool) :=
  if env.pretrainedFetchOk then Except.ok (Weights.pretrained, true)
  else
    match env.modelTorchWeights with
    | some p => Except.ok (Weights.localFile p, false)
    | none => Except.error EngineError.invalidWeightsConfig

/-- A constructed engine, as left by `__init__`. -/
structure EngineState where
  deviceIsCuda : Bool
  fp16 : Bool
  preprocessor : PreprocessorKind
  weights : Weights
  pretrainedLabels : Bool
  trtOutcome : Option TrtOutcome
  fsEvents : List FsEvent
deriving DecidableEq, Repr

/-- Embedding of `ResNet18Engine.__init__` plus `_load_models`
(inference.py 79-132): resolve the device, select the preprocessor once,
load weights (aborting if neither pretrained nor local weights are
available), then on a cuda device with torch_tensorrt importable run the
artifact cache; on a non-cuda device with fallback disallowed abort with
`RuntimeError("CUDA device required but not available.")`. -/
def constructEngine (env : BuildEnv) (cfg : BuildCfg) : Except EngineError EngineState :=
  let deviceIsCuda := resolveDeviceCuda env cfg
  let pre := selectPreprocessor deviceIsCuda env.cupyAvailable
  match loadPretrainedOrLocal env with
  | Except.error e => Except.error e
  | Except.ok (w, plabels) =>
    if deviceIsCuda && env.trtAvailable then
      let run := loadOrCompileTrt env.engineFileExists env.trtAvailable cfg.maxBatchSize cfg.fp16
      Except.ok
        { deviceIsCuda := deviceIsCuda, fp16 := cfg.fp16, preprocessor := pre,
          weights := w, pretrainedLabels := plabels,
          trtOutcome := some run.1, fsEvents := run.2 }
    else if !deviceIsCuda && !cfg.allowCpuFallback then
      Except.error EngineError.cudaRequired
    else
      Except.ok
        { deviceIsCuda := deviceIsCuda, fp16 := cfg.fp16, preprocessor := pre,
          weights := w, pretrainedLabels := plabels,
          trtOutcome := none, fsEvents := [] }

/-! ### Engine singleton (`get_engine`, inference.py 240-251) -/

/-- Program counter of one task running `get_engine`'s double-checked
locking protocol: read `_ENGINE`; if unset, acquire `_ENGINE_LOCK`, re-check,
construct if still unset, release the lock; finally return the global. -/
inductive EnginePC where
  | start
  | acquire
  | recheck
  | construct
  | release
  | finalRead
  | done (ret : Nat)
deriving DecidableEq, Repr

/-- Shared-memory configuration of `n` concurrent `get_engine` callers: the
`_ENGINE` global (instances identified by construction order), the holder of
`_ENGINE_LOCK`, the number of `ResNet18Engine(...)` constructions run so
far, and each task's program counter. -/
structure SysState (n : Nat) where
  engine : Option Nat
  lock : Option (Fin n)
  constructions : Nat
  tasks : Fin n → EnginePC

/-- Interleaving small-step semantics of `get_engine` (inference.py
244-251): any task may take its next step; lock acquisition is enabled only
while the lock is free, and construction publishes a fresh engine instance
and increments the construction counter. -/
inductive GetEngineStep {n : Nat} : SysState n → SysState n → Prop where
  | checkSome (c : SysState n) (i : Fin n) (e : Nat)
      (hpc : c.tasks i = EnginePC.start) (he : c.engine = some e) :
      GetEngineStep c { c with tasks := Function.update c.tasks i EnginePC.finalRead }
  | checkNone (c : SysState n) (i : Fin n)
      (hpc : c.tasks i = EnginePC.start) (he : c.engine = none) :
      GetEngineStep c { c with tasks := Function.update c.tasks i EnginePC.acquire }
  | acquireLock (c : SysState n) (i : Fin n)
      (hpc : c.tasks i = EnginePC.acquire) (hl : c.lock = none) :
      GetEngineStep c
        { c with lock := some i, tasks := Function.update c.tasks i EnginePC.recheck }
  | recheckSome (c : SysState n) (i : Fin n) (e : Nat)
      (hpc : c.tasks i = EnginePC.recheck) (he : c.engine = some e) :
      GetEngineStep c { c with tasks := Function.update c.tasks i EnginePC.release }
  | recheckNone (c : SysState n) (i : Fin n)
      (hpc : c.tasks i = EnginePC.recheck) (he : c.engine = none) :
      GetEngineStep c { c with tasks := Function.update c.tasks i EnginePC.construct }
  | constructRun (c : SysState n) (i : Fin n)
      (hpc : c.tasks i = EnginePC.construct) :
      GetEngineStep c
        { c with engine := some c.constructions,
                 constructions := c.constructions + 1,
                 tasks := Function.update c.tasks i EnginePC.release }
  | releaseLock (c : SysState n) (i : Fin n)
      (hpc : c.tasks i = EnginePC.release) :
      GetEngineStep c
        { c with lock := none, tasks := Function.update c.tasks i EnginePC.finalRead }
  | readResult (c : SysState n) (i : Fin n) (e : Nat)
      (hpc : c.tasks i = EnginePC.finalRead) (he : c.engine = some e) :
      GetEngineStep c { c with tasks := Function.update c.tasks i (EnginePC.done e) }

/-- Initial configuration: `_ENGINE = None`, lock free, no constructions,
every task about to call `get_engine`. -/
def initState (n : Nat) : SysState n :=
  { engine := none, lock := none, constructions := 0, tasks := fun _ => EnginePC.start }

/-- Program counters at which a task is inside the `with _ENGINE_LOCK`
block. -/
def HoldsLock (p : EnginePC) : Prop :=
  p = EnginePC.recheck ∨ p = EnginePC.construct ∨ p = EnginePC.release

/-- Safety invariant of the double-checked locking protocol: the engine is
published exactly by the first construction (instance id 0), every task
inside the critical section holds the lock, a task at the construction step
still sees an unset engine, and every finished task returned the published
engine. -/
structure EngineInv {n : Nat} (c : SysState n) : Prop where
  counts : (c.engine = none ∧ c.constructions = 0) ∨
    (c.engine = some 0 ∧ c.constructions = 1)
  locked : ∀ i : Fin n, HoldsLock (c.tasks i) → c.lock = some i
  constructing : ∀ i : Fin n, c.tasks i = EnginePC.construct → c.engine = none
  finished : ∀ (i : Fin n) (r : Nat), c.tasks i = EnginePC.done r → c.engine = some r

/-- Decidable equality for `Except` results, used to evaluate witnesses. -/
def exceptDecEq {ε α : Type _} [DecidableEq ε] [DecidableEq α] :
    DecidableEq (Except ε α) := fun a b =>
  match a, b with
  | Except.error e, Except.error f =>
    if h : e = f then isTrue (congrArg Except.error h)
    else isFalse (fun hh => h (Except.error.inj hh))
  | Except.ok x, Except.ok y =>
    if h : x = y then isTrue (congrArg Except.ok h)
    else isFalse (fun hh => h (Except.ok.inj hh))
  | Except.error _, Except.ok _ => isFalse (fun hh => Except.noConfusion hh)
  | Except.ok _, Except.error _ => isFalse (fun hh => Except.noConfusion hh)

instance {ε α : Type _} [DecidableEq ε] [DecidableEq α] : DecidableEq (Except ε α) :=
  exceptDecEq

/-! ### Concrete instances used by the closed witness statements -/

/-- A small CPU-only engine with six classes, used as a concrete witness. -/
def wEng : EngineModel :=
  { deviceIsCuda := false
    fp16 := false
    preprocessor := PreprocessorKind.torch
    trtModule := none
    torchModel := fun _ => [[1, 2, 3, 4, 5, 6]]
    labels := ["a", "b", "c", "d", "e", "f"] }

/-- A payload starting with the JPEG magic byte. -/
def wPayload : List Nat := [255, 216]

/-- The image `wPayload` decodes to. -/
def wImg : PImage := ⟨[255, 216]⟩

/-- The tensor reaching the execution phase in the witness run. -/
def wTensor : STensor := toDevice wEng (ensureBatch (applyPreprocessor wEng.preprocessor wImg))

/-- The response `predict id wEng wPayload 1 2` produces (its ranking
evaluates to the candidates `f/6, e/5, d/4, c/3, b/2`). -/
def wResp : InferenceResponse :=
  { top1 := (buildCandidates wEng.labels (predictScores id wEng wImg)).headD ⟨"", 0⟩
    top5 := buildCandidates wEng.labels (predictScores id wEng wImg)
    latency_ms := 1 + 2
    throughput_fps := if 0 < (1 : ℚ) + 2 then some (1000 / ((1 : ℚ) + 2)) else none
    engine := (runModel wEng wTensor).2
    batch_size := wTensor.shape.headD 0 }

/-- The effect trace `predict id wEng wPayload 1 2` produces. -/
def wTr : List PEvent :=
  [PEvent.preprocessRun] ++ (if wEng.deviceIsCuda then [PEvent.cudaSync] else []) ++
    [PEvent.modelExec (runModel wEng wTensor).2] ++
    (if wEng.deviceIsCuda then [PEvent.cudaSync] else [])

/-- A build environment with pretrained weights reachable, no GPU stack. -/
def wEnvOk : BuildEnv := ⟨false, false, false, true, none, false⟩

/-- A build environment where the pretrained fetch fails but a local weight
file is configured. -/
def wEnvLocal : BuildEnv := ⟨false, false, false, false, some "weights.pth", false⟩

/-- A build environment where the pretrained fetch fails and no local weight
file is configured. -/
def wEnvNoWeights : BuildEnv := ⟨false, false, false, false, none, false⟩

/-- A CPU configuration with fallback allowed. -/
def wCfgOk : BuildCfg := ⟨false, false, 8, true⟩

/-- The engine `constructEngine wEnvOk wCfgOk` produces. -/
def wEngineSt : EngineState :=
  ⟨false, false, PreprocessorKind.torch, Weights.pretrained, true, none, []⟩

end GAVID

namespace GAVID

/-- Loop invariant for `collectLoop`: starting at `idx` with `k` iterations
left, the loop produces `k` samples, `k` sample-call events, `k - 1` sleep
events, and every event is either a sample call or a sleep of exactly the
configured interval. -/
theorem collectLoop_spec (b : BackendModel) (interval : ℚ) :
    ∀ k idx total : Nat, total = idx + k →
      (collectLoop b interval total idx).1.length = k ∧
      ((collectLoop b interval total idx).2.countP isSampleCall) = k ∧
      ((collectLoop b interval total idx).2.countP isSleepCall) = k - 1 ∧
      (∀ e ∈ (collectLoop b interval total idx).2,
        e = CollectEvent.sampleCall ∨ e = CollectEvent.sleepCall interval) := by
  intro k
  induction k with
  | zero =>
    intro idx total ht
    rw [collectLoop]
    simp [ht]
  | succ k ih =>
    intro idx total ht
    obtain ⟨ihl, ihsa, ihsl, ihmem⟩ := ih (idx + 1) total (by omega)
    rw [collectLoop]
    have h1 : idx < total := by omega
    simp only [dif_pos h1]
    have hcond : (idx < total - 1) = (0 < k) := by
      refine propext ⟨fun h => by omega, fun h => by omega⟩
    refine ⟨by simpa using ihl, ?_, ?_, ?_⟩
    · cases k with
      | zero => simp [hcond, List.countP_append, isSampleCall, ihsa]
      | succ k =>
        simp [hcond, List.countP_append, List.countP_cons, isSampleCall, ihsa]
    · cases k with
      | zero => simp [hcond, List.countP_append, isSleepCall, ihsl]
      | succ k =>
        simp only [hcond]
        simp [List.countP_append, List.countP_cons, isSleepCall, ihsl]
    · intro e he
      rcases List.mem_append.mp (by simpa using he) with h | h
      · by_cases hc : idx < total - 1 <;> simp [hc] at h <;> tauto
      · exact ihmem e h

/-- C2: cache algorithm of `_load_or_compile_trt`.  When the artifact file
exists the routine loads it, performs no compilation and no write, and its
entire behaviour is independent of the configured batch size and precision
(no validation).  When the file is absent and the compiler is available it
compiles with min batch 1, opt batch `maxBatch / 2 + 1`, max batch `maxBatch`,
enabling the half precision kernel iff fp16 was requested and always enabling
full precision, then writes the serialized artifact. -/
theorem loadOrCompileTrt_cache_algorithm
    (trt trt' : Bool) (mb mb' : Nat) (fp fp' : Bool) :
    ((loadOrCompileTrt true trt mb fp).1 = TrtOutcome.loaded ∧
      FsEvent.compileEngine ∉ (loadOrCompileTrt true trt mb fp).2 ∧
      FsEvent.writeEngineFile ∉ (loadOrCompileTrt true trt mb fp).2 ∧
      loadOrCompileTrt true trt mb fp = loadOrCompileTrt true trt' mb' fp') ∧
    ((loadOrCompileTrt false true mb fp).1 =
        TrtOutcome.compiled 1 (mb / 2 + 1) mb (trtPrecisions fp) ∧
      (Precision.half ∈ trtPrecisions fp ↔ fp = true) ∧
      Precision.full ∈ trtPrecisions fp ∧
      FsEvent.writeEngineFile ∈ (loadOrCompileTrt false true mb fp).2 ∧
      FsEvent.compileEngine ∈ (loadOrCompileTrt false true mb fp).2) := by
  refine ⟨⟨rfl, ?_, ?_, rfl⟩, ?_, ?_, ?_, ?_, ?_⟩ <;>
    cases fp <;> simp [loadOrCompileTrt, trtPrecisions]

/-- C10: the parent-directory creation is the first side effect of every run
of `_load_or_compile_trt`, in particular it also happens when the artifact
file already exists and the call is a pure load (whose full effect trace is
exactly mkdir-then-read, with no compilation and no write). -/
theorem loadOrCompileTrt_mkdir_first (trt : Bool) (mb : Nat) (fp : Bool) :
    (∀ fe : Bool, (loadOrCompileTrt fe trt mb fp).2.head? = some FsEvent.mkdirParent) ∧
    (loadOrCompileTrt true trt mb fp).2 = [FsEvent.mkdirParent, FsEvent.readEngineFile] := by
  refine ⟨?_, rfl⟩
  intro fe
  cases fe <;> cases trt <;> simp [loadOrCompileTrt]

/-- C5: `MetricsCollector.collect` clamps `num_samples` to at least 1, calls
the backend's `sample()` exactly `max 1 num_samples` times, sleeps for the
configured interval exactly `max 1 num_samples - 1` times (so a single-sample
request performs no sleep), and returns exactly that many samples together
with the backend's source name, the configured interval and the device
name. -/
theorem collect_clamp_and_counts (b : BackendModel) (interval : ℚ) (numSamples : Int) :
    1 ≤ (max 1 numSamples).toNat ∧
    (collect b interval numSamples).1.samples.length = (max 1 numSamples).toNat ∧
    ((collect b interval numSamples).2.countP isSampleCall) = (max 1 numSamples).toNat ∧
    ((collect b interval numSamples).2.countP isSleepCall) = (max 1 numSamples).toNat - 1 ∧
    (∀ e ∈ (collect b interval numSamples).2,
      e = CollectEvent.sampleCall ∨ e = CollectEvent.sleepCall interval) ∧
    (numSamples = 1 → ((collect b interval numSamples).2.countP isSleepCall) = 0) ∧
    (collect b interval numSamples).1.source = b.source ∧
    (collect b interval numSamples).1.interval_s = interval ∧
    (collect b interval numSamples).1.device = b.deviceName := by
  have hmax : (1 : Int) ≤ max 1 numSamples := le_max_left _ _
  have hone : 1 ≤ (max 1 numSamples).toNat := by omega
  obtain ⟨hl, hsa, hsl, hmem⟩ :=
    collectLoop_spec b interval ((max 1 numSamples).toNat) 0 ((max 1 numSamples).toNat)
      (by omega)
  refine ⟨hone, ?_, hsa, hsl, hmem, ?_, rfl, rfl, rfl⟩
  · simpa [collect] using hl
  · intro h1
    subst h1
    simpa using hsl

/-- C4: `MetricsCollector` construction probes `_DCGMBackend` then
`_NVMLBackend`, keeping the first whose constructor succeeds; when DCGM fails
and NVML succeeds the active backend's source is "nvml"; when both real
candidates fail the active backend is the stub, whose source is "stub"; and
(collector construction being total) probing always yields one of the three
variants. -/
theorem probeBackends_order (envA envB : TelemetryEnv)
    (hA1 : envA.dcgmConstructs = false) (hA2 : envA.nvmlConstructs = true)
    (hB1 : envB.dcgmConstructs = false) (hB2 : envB.nvmlConstructs = false) :
    probeBackends envA = MetricBackendKind.nvml ∧
    backendSourceName (probeBackends envA) = "nvml" ∧
    probeBackends envB = MetricBackendKind.stub ∧
    backendSourceName (probeBackends envB) = "stub" ∧
    (∀ env : TelemetryEnv, env.dcgmConstructs = true →
      probeBackends env = MetricBackendKind.dcgm) ∧
    (∀ env : TelemetryEnv,
      probeBackends env = MetricBackendKind.dcgm ∨
      probeBackends env = MetricBackendKind.nvml ∨
      probeBackends env = MetricBackendKind.stub) := by
  refine ⟨?_, ?_, ?_, ?_, ?_, ?_⟩
  · simp [probeBackends, hA1, hA2]
  · simp [probeBackends, hA1, hA2, backendSourceName]
  · simp [probeBackends, hB1, hB2]
  · simp [probeBackends, hB1, hB2, backendSourceName]
  · intro env h
    simp [probeBackends, h]
  · intro env
    by_cases h1 : env.dcgmConstructs <;> by_cases h2 : env.nvmlConstructs <;>
      simp [probeBackends, h1, h2]

/-- Witness for C4 at concrete environments. -/
theorem probeBackends_order_witness :
    (TelemetryEnv.mk false true).dcgmConstructs = false ∧
    (TelemetryEnv.mk false true).nvmlConstructs = true ∧
    (TelemetryEnv.mk false false).dcgmConstructs = false ∧
    (TelemetryEnv.mk false false).nvmlConstructs = false ∧
    backendSourceName (probeBackends (TelemetryEnv.mk false true)) = "nvml" ∧
    backendSourceName (probeBackends (TelemetryEnv.mk false false)) = "stub" :=
  ⟨rfl, rfl, rfl, rfl,
    (probeBackends_order (TelemetryEnv.mk false true) (TelemetryEnv.mk false false)
      rfl rfl rfl rfl).2.1,
    (probeBackends_order (TelemetryEnv.mk false true) (TelemetryEnv.mk false false)
      rfl rfl rfl rfl).2.2.2.1⟩

/-- A nonempty list's optional head is its `headD`. -/
theorem headD_eq_head {α : Type _} (l : List α) (d : α) (h : l ≠ []) :
    l.head? = some (l.headD d) := by
  cases l with
  | nil => exact absurd rfl h
  | cons a l => rfl

/-- The candidate list built from at least five scores has exactly five
entries. -/
theorem buildCandidates_length (labels : List String) (scores : List ℚ)
    (h : 5 ≤ scores.length) : (buildCandidates labels scores).length = 5 := by
  simp only [buildCandidates, topkWithIndices, List.length_map, List.length_take,
    List.length_insertionSort, List.enum_length]
  omega

/-- The candidate list is sorted by non-increasing confidence. -/
theorem buildCandidates_sorted (labels : List String) (scores : List ℚ) :
    List.Sorted (fun a b : ClassificationCandidate => b.confidence ≤ a.confidence)
      (buildCandidates labels scores) := by
  have hs : List.Sorted scoreGE
      ((scores.enum.map (fun p => (p.2, p.1))).insertionSort scoreGE) :=
    List.sorted_insertionSort scoreGE _
  have ht : List.Sorted scoreGE (topkWithIndices 5 scores) :=
    List.Pairwise.sublist (List.take_sublist _ _) hs
  exact List.Pairwise.map _ (fun a b hab => hab) ht

/-- C1: for every successfully decoded payload whose model output yields at
least five scores, `predict` returns a `top5` of exactly 5 candidates sorted
by non-increasing confidence, with `top1` equal to the first `top5` entry. -/
theorem predict_top5_ranked (softmaxF : List ℚ → List ℚ) (eng : EngineModel)
    (payload : List Nat) (preMs exMs : ℚ) (img : PImage)
    (hdec : decodeImage payload = some img)
    (hlen : 5 ≤ (predictScores softmaxF eng img).length)
    (resp : InferenceResponse) (tr : List PEvent)
    (hok : predict softmaxF eng payload preMs exMs = (Except.ok resp, tr)) :
    resp.top5.length = 5 ∧
    List.Sorted (fun a b : ClassificationCandidate => b.confidence ≤ a.confidence)
      resp.top5 ∧
    resp.top5.head? = some resp.top1 := by
  simp only [predict, hdec] at hok
  obtain ⟨h1, h2⟩ := Prod.mk.injEq .. ▸ hok
  replace h1 := Except.ok.inj h1
  subst h1
  refine ⟨buildCandidates_length _ _ hlen, buildCandidates_sorted _ _, ?_⟩
  have hne : buildCandidates eng.labels (predictScores softmaxF eng img) ≠ [] := by
    intro hnil
    have := buildCandidates_length eng.labels (predictScores softmaxF eng img) hlen
    rw [hnil] at this
    exact absurd this (by simp)
  exact headD_eq_head _ _ hne

/-- Witness for C1 on a concrete six-class engine and JPEG-magic payload. -/
theorem predict_top5_ranked_witness :
    decodeImage wPayload = some wImg ∧
    5 ≤ (predictScores id wEng wImg).length ∧
    predict id wEng wPayload 1 2 = (Except.ok wResp, wTr) ∧
    (wResp.top5.length = 5 ∧
      List.Sorted (fun a b : ClassificationCandidate => b.confidence ≤ a.confidence)
        wResp.top5 ∧
      wResp.top5.head? = some wResp.top1) :=
  ⟨by decide, by decide, by rfl,
    predict_top5_ranked id wEng wPayload 1 2 wImg (by decide) (by decide)
      wResp wTr (by rfl)⟩

/-- C3: for every payload that does not decode to an image, `predict` fails
with the invalid-image error and performs no preprocessing or device work at
all (its effect trace is empty); the error is the returned outcome (never
retried); and the empty payload is such a payload. -/
theorem predict_invalid_image_no_effects (softmaxF : List ℚ → List ℚ)
    (eng : EngineModel) (payload : List Nat) (preMs exMs : ℚ)
    (hdec : decodeImage payload = none) :
    predict softmaxF eng payload preMs exMs =
      (Except.error PredictError.invalidImage, ([] : List PEvent)) ∧
    decodeImage ([] : List Nat) = none :=
  ⟨by simp [predict, hdec], rfl⟩

/-- Witness for C3 at the empty payload. -/
theorem predict_invalid_image_no_effects_witness :
    decodeImage ([] : List Nat) = none ∧
    predict id wEng [] 0 0 = (Except.error PredictError.invalidImage, ([] : List PEvent)) :=
  ⟨rfl, (predict_invalid_image_no_effects id wEng [] 0 0 rfl).1⟩

/-- C7: every successful `predict` reports `latency_ms = preMs + exMs`; when
latency is positive, `throughput_fps` is `1000 / latency_ms` and multiplies
back to exactly 1000; when latency is zero the throughput is the
infinite marker. -/
theorem predict_latency_throughput (softmaxF : List ℚ → List ℚ) (eng : EngineModel)
    (payload : List Nat) (preMs exMs : ℚ) (img : PImage)
    (resp : InferenceResponse) (tr : List PEvent)
    (hdec : decodeImage payload = some img)
    (hok : predict softmaxF eng payload preMs exMs = (Except.ok resp, tr)) :
    resp.latency_ms = preMs + exMs ∧
    (0 < resp.latency_ms →
      resp.throughput_fps = some (1000 / resp.latency_ms) ∧
      (1000 / resp.latency_ms) * resp.latency_ms = 1000) ∧
    (resp.latency_ms = 0 → resp.throughput_fps = none) := by
  simp only [predict, hdec] at hok
  obtain ⟨h1, h2⟩ := Prod.mk.injEq .. ▸ hok
  replace h1 := Except.ok.inj h1
  subst h1
  refine ⟨rfl, ?_, ?_⟩
  · intro hpos
    refine ⟨by simp only [if_pos hpos], ?_⟩
    exact div_mul_cancel₀ (1000 : ℚ) (ne_of_gt hpos)
  · intro hzero
    have hz : preMs + exMs = 0 := hzero
    show (if 0 < preMs + exMs then some ((1000 : ℚ) / (preMs + exMs)) else none) = none
    rw [hz]
    simp

/-- Witness for C7 with measured phase times 1 ms and 2 ms. -/
theorem predict_latency_throughput_witness :
    decodeImage wPayload = some wImg ∧
    predict id wEng wPayload 1 2 = (Except.ok wResp, wTr) ∧
    (wResp.latency_ms = 1 + 2 ∧
      (0 < wResp.latency_ms →
        wResp.throughput_fps = some (1000 / wResp.latency_ms) ∧
        (1000 / wResp.latency_ms) * wResp.latency_ms = 1000) ∧
      (wResp.latency_ms = 0 → wResp.throughput_fps = none)) :=
  ⟨by decide, by rfl,
    predict_latency_throughput id wEng wPayload 1 2 wImg wResp wTr
      (by decide) (by rfl)⟩

/-- In every successful construction the preprocessor field is the one-time
selection, the device field is the resolved device, and the weights are not
randomly initialized. -/
theorem constructEngine_ok_fields (env : BuildEnv) (cfg : BuildCfg) (st : EngineState)
    (hok : constructEngine env cfg = Except.ok st) :
    st.preprocessor = selectPreprocessor (resolveDeviceCuda env cfg) env.cupyAvailable ∧
    st.deviceIsCuda = resolveDeviceCuda env cfg ∧
    st.weights ≠ Weights.randomInit := by
  have hwe : ∀ w : Weights, ∀ pl : Bool,
      loadPretrainedOrLocal env = Except.ok (w, pl) → w ≠ Weights.randomInit := by
    intro w pl h
    unfold loadPretrainedOrLocal at h
    split at h
    · obtain ⟨hw, -⟩ := Prod.mk.injEq .. ▸ Except.ok.inj h
      subst hw
      simp
    · split at h
      · obtain ⟨hw, -⟩ := Prod.mk.injEq .. ▸ Except.ok.inj h
        subst hw
        simp
      · exact absurd h (by simp)
  simp only [constructEngine] at hok
  cases hw : loadPretrainedOrLocal env with
  | error e => simp [hw] at hok
  | ok wp =>
    obtain ⟨w, pl⟩ := wp
    simp only [hw] at hok
    by_cases h1 : (resolveDeviceCuda env cfg && env.trtAvailable) = true
    · rw [if_pos h1] at hok
      replace hok := Except.ok.inj hok
      subst hok
      exact ⟨rfl, rfl, hwe w pl hw⟩
    · rw [if_neg h1] at hok
      by_cases h2 : (!resolveDeviceCuda env cfg && !cfg.allowCpuFallback) = true
      · rw [if_pos h2] at hok
        exact absurd hok (by simp)
      · rw [if_neg h2] at hok
        replace hok := Except.ok.inj hok
        subst hok
        exact ⟨rfl, rfl, hwe w pl hw⟩

/-- The selection rule is the conjunction of the two capability booleans. -/
theorem selectPreprocessor_cupy_iff (d c : Bool) :
    selectPreprocessor d c = PreprocessorKind.cupy ↔ (d = true ∧ c = true) := by
  cases d <;> cases c <;> simp [selectPreprocessor]

/-- When the selection is not CuPy it is the CPU strategy. -/
theorem selectPreprocessor_ne_cupy (d c : Bool)
    (h : selectPreprocessor d c ≠ PreprocessorKind.cupy) :
    selectPreprocessor d c = PreprocessorKind.torch := by
  revert h
  cases d <;> cases c <;> simp [selectPreprocessor]

/-- C8: a constructed engine uses the CuPy preprocessing strategy iff the
resolved device is cuda and CuPy is importable, and otherwise the CPU
strategy; the stored strategy is exactly the construction-time selection
(the functional embedding has no later mutation of it). -/
theorem preprocessor_selection_rule (env : BuildEnv) (cfg : BuildCfg) (st : EngineState)
    (hok : constructEngine env cfg = Except.ok st) :
    st.preprocessor = selectPreprocessor (resolveDeviceCuda env cfg) env.cupyAvailable ∧
    (st.preprocessor = PreprocessorKind.cupy ↔
      (resolveDeviceCuda env cfg = true ∧ env.cupyAvailable = true)) ∧
    (st.preprocessor ≠ PreprocessorKind.cupy → st.preprocessor = PreprocessorKind.torch) := by
  obtain ⟨hpre, -, -⟩ := constructEngine_ok_fields env cfg st hok
  refine ⟨hpre, ?_, ?_⟩
  · rw [hpre]
    exact selectPreprocessor_cupy_iff _ _
  · intro h
    rw [hpre] at h ⊢
    exact selectPreprocessor_ne_cupy _ _ h

/-- Witness for C8 on a CPU-only environment. -/
theorem preprocessor_selection_rule_witness :
    constructEngine wEnvOk wCfgOk = Except.ok wEngineSt ∧
    (wEngineSt.preprocessor =
        selectPreprocessor (resolveDeviceCuda wEnvOk wCfgOk) wEnvOk.cupyAvailable ∧
      (wEngineSt.preprocessor = PreprocessorKind.cupy ↔
        (resolveDeviceCuda wEnvOk wCfgOk = true ∧ wEnvOk.cupyAvailable = true)) ∧
      (wEngineSt.preprocessor ≠ PreprocessorKind.cupy →
        wEngineSt.preprocessor = PreprocessorKind.torch)) :=
  ⟨by decide, preprocessor_selection_rule wEnvOk wCfgOk wEngineSt (by decide)⟩

/-- C9: when the pretrained fetch fails, construction loads the configured
local weight file if there is one and otherwise aborts with the
configuration error; no constructed engine ever holds randomly initialized
weights; and requesting cuda while it is unavailable with CPU fallback
disallowed makes construction fail (no engine value is produced). -/
theorem construction_failfast (envA envB : BuildEnv) (cfgB : BuildCfg) (p : String)
    (hA1 : envA.pretrainedFetchOk = false) (hA2 : envA.modelTorchWeights = some p)
    (hB1 : envB.pretrainedFetchOk = false) (hB2 : envB.modelTorchWeights = none) :
    loadPretrainedOrLocal envA = Except.ok (Weights.localFile p, false) ∧
    constructEngine envB cfgB = Except.error EngineError.invalidWeightsConfig ∧
    (∀ (env : BuildEnv) (cfg : BuildCfg) (st : EngineState),
      constructEngine env cfg = Except.ok st → st.weights ≠ Weights.randomInit) ∧
    (∀ (env : BuildEnv) (cfg : BuildCfg),
      cfg.requestedCuda = true → env.cudaAvailable = false →
      cfg.allowCpuFallback = false →
      ∀ st : EngineState, constructEngine env cfg ≠ Except.ok st) := by
  refine ⟨?_, ?_, ?_, ?_⟩
  · simp [loadPretrainedOrLocal, hA1, hA2]
  · have hload : loadPretrainedOrLocal envB = Except.error EngineError.invalidWeightsConfig := by
      simp [loadPretrainedOrLocal, hB1, hB2]
    simp [constructEngine, hload]
  · intro env cfg st hok
    exact (constructEngine_ok_fields env cfg st hok).2.2
  · intro env cfg hreq hcuda hfb st hok
    have hres : resolveDeviceCuda env cfg = false := by
      simp [resolveDeviceCuda, hcuda]
    simp only [constructEngine, hres] at hok
    cases hw : loadPretrainedOrLocal env with
    | error e => simp [hw] at hok
    | ok wp =>
      obtain ⟨w, pl⟩ := wp
      simp only [hw] at hok
      rw [if_neg (by simp), if_pos (by simp [hfb])] at hok
      exact absurd hok (by simp)

/-- One step of the `get_engine` protocol preserves the safety invariant. -/
theorem engineInv_step {n : Nat} {c c' : SysState n}
    (hinv : EngineInv c) (hstep : GetEngineStep c c') : EngineInv c' := by
  obtain ⟨hcounts, hlocked, hconstructing, hfinished⟩ := hinv
  cases hstep with
  | checkSome i e hpc he =>
    refine ⟨hcounts, ?_, ?_, ?_⟩
    · intro j hj
      rcases eq_or_ne j i with rfl | hne
      · simp [HoldsLock, Function.update_same] at hj
      · exact hlocked j (by simpa [Function.update_noteq hne] using hj)
    · intro j hj
      rcases eq_or_ne j i with rfl | hne
      · simp [Function.update_same] at hj
      · exact hconstructing j (by simpa [Function.update_noteq hne] using hj)
    · intro j r hj
      rcases eq_or_ne j i with rfl | hne
      · simp [Function.update_same] at hj
      · exact hfinished j r (by simpa [Function.update_noteq hne] using hj)
  | checkNone i hpc he =>
    refine ⟨hcounts, ?_, ?_, ?_⟩
    · intro j hj
      rcases eq_or_ne j i with rfl | hne
      · simp [HoldsLock, Function.update_same] at hj
      · exact hlocked j (by simpa [Function.update_noteq hne] using hj)
    · intro j hj
      rcases eq_or_ne j i with rfl | hne
      · simp [Function.update_same] at hj
      · exact hconstructing j (by simpa [Function.update_noteq hne] using hj)
    · intro j r hj
      rcases eq_or_ne j i with rfl | hne
      · simp [Function.update_same] at hj
      · exact hfinished j r (by simpa [Function.update_noteq hne] using hj)
  | acquireLock i hpc hl =>
    refine ⟨hcounts, ?_, ?_, ?_⟩
    · intro j hj
      rcases eq_or_ne j i with rfl | hne
      · rfl
      · have hj' : HoldsLock (c.tasks j) := by
          simpa [Function.update_noteq hne] using hj
        exact absurd (hlocked j hj') (by simp [hl])
    · intro j hj
      rcases eq_or_ne j i with rfl | hne
      · simp [Function.update_same] at hj
      · exact hconstructing j (by simpa [Function.update_noteq hne] using hj)
    · intro j r hj
      rcases eq_or_ne j i with rfl | hne
      · simp [Function.update_same] at hj
      · exact hfinished j r (by simpa [Function.update_noteq hne] using hj)
  | recheckSome i e hpc he =>
    refine ⟨hcounts, ?_, ?_, ?_⟩
    · intro j hj
      rcases eq_or_ne j i with rfl | hne
      · exact hlocked j (Or.inl hpc)
      · exact hlocked j (by simpa [Function.update_noteq hne] using hj)
    · intro j hj
      rcases eq_or_ne j i with rfl | hne
      · simp [Function.update_same] at hj
      · exact hconstructing j (by simpa [Function.update_noteq hne] using hj)
    · intro j r hj
      rcases eq_or_ne j i with rfl | hne
      · simp [Function.update_same] at hj
      · exact hfinished j r (by simpa [Function.update_noteq hne] using hj)
  | recheckNone i hpc he =>
    refine ⟨hcounts, ?_, ?_, ?_⟩
    · intro j hj
      rcases eq_or_ne j i with rfl | hne
      · exact hlocked j (Or.inl hpc)
      · exact hlocked j (by simpa [Function.update_noteq hne] using hj)
    · intro j hj
      rcases eq_or_ne j i with rfl | hne
      · exact he
      · exact hconstructing j (by simpa [Function.update_noteq hne] using hj)
    · intro j r hj
      rcases eq_or_ne j i with rfl | hne
      · simp [Function.update_same] at hj
      · exact hfinished j r (by simpa [Function.update_noteq hne] using hj)
  | constructRun i hpc =>
    have he : c.engine = none := hconstructing i hpc
    have hc0 : c.constructions = 0 := by
      rcases hcounts with ⟨-, h⟩ | ⟨h, -⟩
      · exact h
      · rw [h] at he
        exact absurd he (by simp)
    refine ⟨?_, ?_, ?_, ?_⟩
    · refine Or.inr ⟨?_, ?_⟩
      · show some c.constructions = some 0
        rw [hc0]
      · show c.constructions + 1 = 1
        omega
    · intro j hj
      rcases eq_or_ne j i with rfl | hne
      · exact hlocked j (Or.inr (Or.inl hpc))
      · exact hlocked j (by simpa [Function.update_noteq hne] using hj)
    · intro j hj
      rcases eq_or_ne j i with rfl | hne
      · simp [Function.update_same] at hj
      · have hj' : c.tasks j = EnginePC.construct := by
          simpa [Function.update_noteq hne] using hj
        have h1 := hlocked j (Or.inr (Or.inl hj'))
        have h2 := hlocked i (Or.inr (Or.inl hpc))
        rw [h1] at h2
        exact absurd (Option.some.inj h2) hne
    · intro j r hj
      rcases eq_or_ne j i with rfl | hne
      · simp [Function.update_same] at hj
      · have hj' : c.tasks j = EnginePC.done r := by
          simpa [Function.update_noteq hne] using hj
        have h1 := hfinished j r hj'
        rw [he] at h1
        exact absurd h1 (by simp)
  | releaseLock i hpc =>
    refine ⟨hcounts, ?_, ?_, ?_⟩
    · intro j hj
      rcases eq_or_ne j i with rfl | hne
      · simp [HoldsLock, Function.update_same] at hj
      · have hj' : HoldsLock (c.tasks j) := by
          simpa [Function.update_noteq hne] using hj
        have h1 := hlocked j hj'
        have h2 := hlocked i (Or.inr (Or.inr hpc))
        rw [h1] at h2
        exact absurd (Option.some.inj h2) hne
    · intro j hj
      rcases eq_or_ne j i with rfl | hne
      · simp [Function.update_same] at hj
      · exact hconstructing j (by simpa [Function.update_noteq hne] using hj)
    · intro j r hj
      rcases eq_or_ne j i with rfl | hne
      · simp [Function.update_same] at hj
      · exact hfinished j r (by simpa [Function.update_noteq hne] using hj)
  | readResult i e hpc he =>
    refine ⟨hcounts, ?_, ?_, ?_⟩
    · intro j hj
      rcases eq_or_ne j i with rfl | hne
      · simp [HoldsLock, Function.update_same] at hj
      · exact hlocked j (by simpa [Function.update_noteq hne] using hj)
    · intro j hj
      rcases eq_or_ne j i with rfl | hne
      · simp [Function.update_same] at hj
      · exact hconstructing j (by simpa [Function.update_noteq hne] using hj)
    · intro j r hj
      rcases eq_or_ne j i with rfl | hne
      · have hj' : e = r := by simpa [Function.update_same] using hj
        rw [← hj']
        exact he
      · exact hfinished j r (by simpa [Function.update_noteq hne] using hj)

/-- The safety invariant holds in every reachable configuration. -/
theorem engineInv_reachable {n : Nat} {c : SysState n}
    (h : Relation.ReflTransGen GetEngineStep (initState n) c) : EngineInv c := by
  induction h with
  | refl =>
    refine ⟨Or.inl ⟨rfl, rfl⟩, ?_, ?_, ?_⟩
    · intro i hi
      simp [initState, HoldsLock] at hi
    · intro i hi
      simp [initState] at hi
    · intro i r hi
      simp [initState] at hi
  | tail _ hstep ih => exact engineInv_step ih hstep

/-- C6: under every interleaving of `n` concurrent `get_engine` callers
from the initial state, the `ResNet18Engine` constructor runs at most once,
all callers that have returned hold the same instance, and as soon as any
caller has returned exactly one construction has happened — so later callers
observe the published singleton and return it without reinitializing. -/
theorem getEngine_singleton {n : Nat} (c : SysState n)
    (h : Relation.ReflTransGen GetEngineStep (initState n) c) :
    c.constructions ≤ 1 ∧
    (∀ (i j : Fin n) (ri rj : Nat),
      c.tasks i = EnginePC.done ri → c.tasks j = EnginePC.done rj → ri = rj) ∧
    (∀ (i : Fin n) (r : Nat), c.tasks i = EnginePC.done r →
      c.constructions = 1 ∧ c.engine = some r) := by
  obtain ⟨hcounts, -, -, hfinished⟩ := engineInv_reachable h
  refine ⟨?_, ?_, ?_⟩
  · rcases hcounts with ⟨-, h0⟩ | ⟨-, h1⟩ <;> omega
  · intro i j ri rj hi hj
    have h1 := hfinished i ri hi
    have h2 := hfinished j rj hj
    rw [h1] at h2
    exact Option.some.inj h2
  · intro i r hi
    have h1 := hfinished i r hi
    rcases hcounts with ⟨he0, -⟩ | ⟨-, hc1⟩
    · rw [he0] at h1
      exact absurd h1 (by simp)
    · exact ⟨hc1, h1⟩

/-- Witness for C6: the initial two-task configuration is reachable and the
singleton guarantees hold there. -/
theorem getEngine_singleton_witness :
    Relation.ReflTransGen (@GetEngineStep 2) (initState 2) (initState 2) ∧
    ((initState 2).constructions ≤ 1 ∧
      (∀ (i j : Fin 2) (ri rj : Nat),
        (initState 2).tasks i = EnginePC.done ri →
        (initState 2).tasks j = EnginePC.done rj → ri = rj) ∧
      (∀ (i : Fin 2) (r : Nat), (initState 2).tasks i = EnginePC.done r →
        (initState 2).constructions = 1 ∧ (initState 2).engine = some r)) :=
  ⟨Relation.ReflTransGen.refl,
    getEngine_singleton (initState 2) Relation.ReflTransGen.refl⟩

/-- Witness for C9 at concrete environments with and without a configured
local weight file. -/
theorem construction_failfast_witness :
    wEnvLocal.pretrainedFetchOk = false ∧
    wEnvLocal.modelTorchWeights = some "weights.pth" ∧
    wEnvNoWeights.pretrainedFetchOk = false ∧
    wEnvNoWeights.modelTorchWeights = none ∧
    loadPretrainedOrLocal wEnvLocal = Except.ok (Weights.localFile "weights.pth", false) ∧
    constructEngine wEnvNoWeights wCfgOk = Except.error EngineError.invalidWeightsConfig :=
  ⟨rfl, rfl, rfl, rfl,
    (construction_failfast wEnvLocal wEnvNoWeights wCfgOk "weights.pth"
      rfl rfl rfl rfl).1,
    (construction_failfast wEnvLocal wEnvNoWeights wCfgOk "weights.pth"
      rfl rfl rfl rfl).2.1⟩

end GAVID
